import Mathlib

set_option maxRecDepth 10000

/-!
Verification of the Agent-B state-machine agent engine (Rust crate `agentsm`).

This file is a shallow embedding of the crate's core data model and of the
functions the checked claims are about:

* `src/src/types.rs`       — `State`, `ToolCall`, `ToolResult`, `HistoryEntry`,
                             `LlmResponse`, `AgentConfig`
* `src/src/events.rs`      — `Event`
* `src/src/transitions.rs` — `build_transition_table`
* `src/src/engine.rs`      — `AgentEngine::{run, step}`
* `src/src/states/planning.rs`        — `PlanningState::handle_tool_call`
* `src/src/states/observing.rs`       — `ObservingState::handle`
* `src/src/states/parallel_acting.rs` — `ParallelActingState::handle`
* `src/src/llm/retry.rs`   — `RetryingLlmCaller`
* `src/src/checkpoint.rs`  — `MemoryCheckpointStore` / `FileCheckpointStore` /
                             `SqliteCheckpointStore`
* `src/src/human.rs`       — `ApprovalPolicy::needs_approval`
* `src/src/memory.rs`      — `AgentMemory`
* `src/src/budget.rs`      — `TokenUsage`

Modelling conventions, applied uniformly:

* Rust `f64` scores (confidence, thresholds) are modelled as `Rat`: the
  embedded code only ever compares them with `<`, and on the non-NaN values
  the crate produces the rational order is the same order.
* `serde_json::Value` tool arguments are opaque to every embedded function
  (they are only copied around, never inspected), so they are modelled by an
  opaque payload type `JsonValue := String`.
* `chrono` timestamps are modelled as `Nat`; only their order is ever used.
* The asynchronous handler signature `handle(&mut memory, tools, llm, tx)`
  is modelled as a pure function `Memory → Memory × Event`; the tool registry
  and LLM caller a concrete handler consults are baked into that function.
  Sends on the streaming `output_tx` channel do not affect memory, the
  produced event, or the engine, and are not modelled.
* `memory.log` appends a `TraceEntry`; its free-text `data` payload and
  wall-clock `timestamp` are not modelled (no embedded function reads them).
* The host approval callback `approval_callback` is a closure the embedded
  code paths never invoke; the field is omitted from the memory model.
-/

namespace Agentsm

/-- Opaque stand-in for `serde_json::Value` tool-argument payloads; the
embedded code copies these around but never inspects them. -/
abbrev JsonValue := String

/-- Tool arguments: `HashMap<String, serde_json::Value>` modelled as an
association list. No embedded function looks anything up in it. -/
abbrev Args := List (String × JsonValue)

/-- Mirrors `State` from `src/src/types.rs`: a state is a named identifier. -/
structure State where
  name : String
deriving DecidableEq, Repr

/-- Mirrors the well-known state constructors of `src/src/types.rs`. -/
def State.idle : State := ⟨"Idle"⟩

def State.planning : State := ⟨"Planning"⟩

def State.acting : State := ⟨"Acting"⟩

def State.observing : State := ⟨"Observing"⟩

def State.reflecting : State := ⟨"Reflecting"⟩

def State.done : State := ⟨"Done"⟩

def State.error : State := ⟨"Error"⟩

def State.parallelActing : State := ⟨"ParallelActing"⟩

def State.waitingForHuman : State := ⟨"WaitingForHuman"⟩

/-- Mirrors `Event` from `src/src/events.rs`: a named event. -/
structure Event where
  name : String
deriving DecidableEq, Repr

/-- Mirrors `Event::start`. -/
def Event.start : Event := ⟨"Start"⟩

/-- Mirrors `Event::llm_tool_call`. -/
def Event.llmToolCall : Event := ⟨"LlmToolCall"⟩

/-- Mirrors `Event::llm_final_answer`. -/
def Event.llmFinalAnswer : Event := ⟨"LlmFinalAnswer"⟩

/-- Mirrors `Event::max_steps`. -/
def Event.maxSteps : Event := ⟨"MaxSteps"⟩

/-- Mirrors `Event::low_confidence`. -/
def Event.lowConfidence : Event := ⟨"LowConfidence"⟩

/-- Mirrors `Event::answer_too_short`. -/
def Event.answerTooShort : Event := ⟨"AnswerTooShort"⟩

/-- Mirrors `Event::tool_blacklisted`. -/
def Event.toolBlacklisted : Event := ⟨"ToolBlacklisted"⟩

/-- Mirrors `Event::fatal_error`. -/
def Event.fatalError : Event := ⟨"FatalError"⟩

/-- Mirrors `Event::tool_success`. -/
def Event.toolSuccess : Event := ⟨"ToolSuccess"⟩

/-- Mirrors `Event::tool_failure`. -/
def Event.toolFailure : Event := ⟨"ToolFailure"⟩

/-- Mirrors `Event::r#continue`. -/
def Event.continueEvent : Event := ⟨"Continue"⟩

/-- Mirrors `Event::needs_reflection`. -/
def Event.needsReflection : Event := ⟨"NeedsReflection"⟩

/-- Mirrors `Event::reflect_done`. -/
def Event.reflectDone : Event := ⟨"ReflectDone"⟩

/-- Event name used by `src/src/states/planning.rs` via
`Event::llm_parallel_tool_calls()`. NOTE: `src/src/events.rs` defines no such
constructor; the handler sources construct this event by name, so the value is
written out literally here. -/
def Event.llmParallelToolCalls : Event := ⟨"LlmParallelToolCalls"⟩

/-- Event name used by `src/src/states/planning.rs` via
`Event::human_approval_required()`; also absent from `src/src/events.rs`. -/
def Event.humanApprovalRequired : Event := ⟨"HumanApprovalRequired"⟩

/-- Event name used by `src/src/states/waiting_for_human.rs` via
`Event::human_approved()`; absent from `src/src/events.rs`. -/
def Event.humanApproved : Event := ⟨"HumanApproved"⟩

/-- Event name used by `src/src/states/waiting_for_human.rs` via
`Event::human_rejected()`; absent from `src/src/events.rs`. -/
def Event.humanRejected : Event := ⟨"HumanRejected"⟩

/-- Event name used by `src/src/states/waiting_for_human.rs` via
`Event::human_modified()`; absent from `src/src/events.rs`. -/
def Event.humanModified : Event := ⟨"HumanModified"⟩

/-- Mirrors `ToolCall` from `src/src/types.rs`. -/
structure ToolCall where
  name : String
  args : Args
  id   : Option String
deriving DecidableEq, Repr

/-- Mirrors `HistoryEntry` from `src/src/types.rs`. -/
structure HistoryEntry where
  step        : Nat
  tool        : ToolCall
  observation : String
  success     : Bool
deriving DecidableEq, Repr

/-- Mirrors `ToolResult` from `src/src/types.rs`. -/
structure ToolResult where
  toolName  : String
  toolArgs  : Args
  id        : Option String
  output    : String
  success   : Bool
  latencyMs : Nat
deriving DecidableEq, Repr

/-- Mirrors `ToolResult::success` (prefixes the output with `"SUCCESS: "`).
Latency is wall-clock time in the source and is not modelled (always 0). -/
def ToolResult.mkSuccess (toolName : String) (toolArgs : Args)
    (id : Option String) (output : String) (latencyMs : Nat) : ToolResult :=
  { toolName := toolName, toolArgs := toolArgs, id := id,
    output := "SUCCESS: " ++ output, success := true, latencyMs := latencyMs }

/-- Mirrors `ToolResult::failure` (prefixes the output with `"ERROR: "`). -/
def ToolResult.mkFailure (toolName : String) (toolArgs : Args)
    (id : Option String) (error : String) (latencyMs : Nat) : ToolResult :=
  { toolName := toolName, toolArgs := toolArgs, id := id,
    output := "ERROR: " ++ error, success := false, latencyMs := latencyMs }

/-- Mirrors `TokenUsage` from `src/src/budget.rs`. -/
structure TokenUsage where
  inputTokens  : Nat
  outputTokens : Nat
  totalTokens  : Nat
deriving DecidableEq, Repr

/-- Mirrors `LlmResponse` from `src/src/types.rs`. -/
inductive LlmResponse where
  | toolCall (tool : ToolCall) (confidence : Rat) (usage : Option TokenUsage)
  | parallelToolCalls (tools : List ToolCall) (confidence : Rat)
      (usage : Option TokenUsage)
  | finalAnswer (content : String) (usage : Option TokenUsage)
deriving DecidableEq, Repr

/-- Mirrors `AgentConfig` from `src/src/types.rs`. -/
structure AgentConfig where
  maxSteps            : Nat
  maxRetries          : Nat
  confidenceThreshold : Rat
  reflectEveryNSteps  : Nat
  minAnswerLength     : Nat
  parallelTools       : Bool
  models              : List (String × String)
deriving DecidableEq, Repr

/-- Mirrors `impl Default for AgentConfig` from `src/src/types.rs`. -/
def AgentConfig.default : AgentConfig :=
  { maxSteps := 15, maxRetries := 3, confidenceThreshold := (2 : Rat) / 5,
    reflectEveryNSteps := 5, minAnswerLength := 5, parallelTools := true,
    models := [] }

/-- Mirrors `RiskLevel` from `src/src/human.rs`; `derive(PartialOrd, Ord)` in
Rust orders the variants in declaration order. -/
inductive RiskLevel where
  | low
  | medium
  | high
  | critical
deriving DecidableEq, Repr

/-- Declaration-order rank realizing the derived Rust `Ord` on `RiskLevel`. -/
def RiskLevel.rank : RiskLevel → Nat
  | .low => 0
  | .medium => 1
  | .high => 2
  | .critical => 3

/-- Mirrors the derived Rust comparison `a >= b` on `RiskLevel`. -/
def RiskLevel.ge (a b : RiskLevel) : Bool := b.rank ≤ a.rank

/-- Mirrors `HumanApprovalRequest` from `src/src/human.rs`. -/
structure HumanApprovalRequest where
  toolName  : String
  toolArgs  : Args
  riskLevel : RiskLevel
  reason    : String
deriving DecidableEq, Repr

/-- Mirrors `HumanDecision` from `src/src/human.rs`. -/
inductive HumanDecision where
  | approved
  | rejected (reason : String)
  | modified (toolName : String) (toolArgs : Args)
deriving DecidableEq, Repr

/-- Mirrors `ApprovalPolicy` from `src/src/human.rs`. -/
inductive ApprovalPolicy where
  | alwaysAsk
  | neverAsk
  | askAbove (threshold : RiskLevel)
  | toolBased (map : List (String × RiskLevel))
deriving DecidableEq, Repr

/-- Association-list lookup with the key-equality semantics of the Rust
`HashMap::get` used throughout the crate (keys in the embedded lists are
unique, so list order is irrelevant). -/
def assocLookup {α β : Type} [DecidableEq α] (l : List (α × β)) (k : α) :
    Option β :=
  (l.find? (fun p => decide (p.1 = k))).map (·.2)

/-- Mirrors `impl Default for ApprovalPolicy` from `src/src/human.rs`:
`AskAbove(RiskLevel::High)`. -/
def ApprovalPolicy.default : ApprovalPolicy := .askAbove .high

/-- Mirrors `ApprovalPolicy::needs_approval` from `src/src/human.rs`
(lines 44-60). The `_args` parameter is ignored by the source exactly as
here. For `ToolBased`, a tool missing from the map defaults to `Low` risk and
the hardcoded threshold is `High`. -/
def ApprovalPolicy.needsApproval (p : ApprovalPolicy) (toolName : String)
    (_args : Args) : Bool :=
  match p with
  | .alwaysAsk => true
  | .neverAsk => false
  | .askAbove threshold => RiskLevel.medium.ge threshold
  | .toolBased map =>
    let risk := (assocLookup map toolName).getD RiskLevel.low
    risk.ge RiskLevel.high

/-- Mirrors `TraceEntry` from `src/src/trace.rs`, minus the free-text `data`
payload and the wall-clock `timestamp`, neither of which any embedded
function reads. -/
structure TraceEntry where
  step  : Nat
  state : String
  event : String
deriving DecidableEq, Repr

/-- Mirrors `AgentMemory` from `src/src/memory.rs`. The `approval_callback`
closure field is omitted: no embedded code path invokes it. -/
structure Memory where
  task             : String
  taskType         : String
  systemPrompt     : String
  step             : Nat
  retryCount       : Nat
  confidenceScore  : Rat
  currentToolCall  : Option ToolCall
  lastObservation  : Option String
  pendingToolCalls : List ToolCall
  parallelResults  : List ToolResult
  history          : List HistoryEntry
  finalAnswer      : Option String
  error            : Option String
  config           : AgentConfig
  blacklistedTools : List String
  pendingApproval  : Option HumanApprovalRequest
  approvalPolicy   : ApprovalPolicy
  trace            : List TraceEntry
deriving DecidableEq, Repr

/-- Mirrors `AgentMemory::new` from `src/src/memory.rs`. -/
def Memory.new (task : String) : Memory :=
  { task := task, taskType := "default", systemPrompt := "",
    step := 0, retryCount := 0, confidenceScore := 1,
    currentToolCall := none, lastObservation := none,
    pendingToolCalls := [], parallelResults := [],
    history := [], finalAnswer := none, error := none,
    config := AgentConfig.default, blacklistedTools := [],
    pendingApproval := none, approvalPolicy := ApprovalPolicy.default,
    trace := [] }

/-- Mirrors `AgentMemory::log` from `src/src/memory.rs` (the `data` payload
is dropped, see `TraceEntry`). -/
def Memory.log (m : Memory) (state event : String) : Memory :=
  { m with trace := m.trace ++ [{ step := m.step, state := state, event := event }] }

/-- Transition table type, mirroring `TransitionTable` from
`src/src/transitions.rs` (`HashMap<(State, Event), State>`); the embedded
tables have unique keys, so an association list is an exact model. -/
abbrev TransitionTable := List ((State × Event) × State)

/-- Mirrors `build_transition_table` from `src/src/transitions.rs`
(lines 14-45), edge for edge and in source order. This is the complete list:
the source inserts no edge out of `ParallelActing` or `WaitingForHuman`, and
none for `(Planning, LlmParallelToolCalls)` or
`(Planning, HumanApprovalRequired)`. -/
def buildTransitionTable : TransitionTable :=
  [ ((State.idle, Event.start), State.planning),
    ((State.planning, Event.llmToolCall), State.acting),
    ((State.planning, Event.llmFinalAnswer), State.done),
    ((State.planning, Event.maxSteps), State.error),
    ((State.planning, Event.lowConfidence), State.reflecting),
    ((State.planning, Event.answerTooShort), State.planning),
    ((State.planning, Event.toolBlacklisted), State.planning),
    ((State.planning, Event.fatalError), State.error),
    ((State.acting, Event.toolSuccess), State.observing),
    ((State.acting, Event.toolFailure), State.observing),
    ((State.acting, Event.fatalError), State.error),
    ((State.observing, Event.continueEvent), State.planning),
    ((State.observing, Event.needsReflection), State.reflecting),
    ((State.reflecting, Event.reflectDone), State.planning) ]

/-- Transition lookup, mirroring `self.transitions.get(&key)` in
`src/src/engine.rs` and `is_valid_transition` in `src/src/transitions.rs`. -/
def lookupTransition (t : TransitionTable) (key : State × Event) :
    Option State :=
  assocLookup t key

end Agentsm

namespace Agentsm

/-- Mirrors `AgentError` from `src/src/error.rs`. -/
inductive AgentError where
  | agentFailed (msg : String)
  | invalidTransition (fromState : State) (event : Event)
  | noHandlerForState (name : String)
  | safetyCapExceeded (iterations : Nat)
  | llmError (msg : String)
  | toolError (msg : String)
  | memoryError (msg : String)
  | buildError (msg : String)
deriving DecidableEq, Repr

/-- Handler model: the asynchronous
`AgentState::handle(&mut memory, tools, llm, output_tx) -> Event` of
`src/src/states/mod.rs`, with the tool registry and LLM caller a concrete
handler consults baked in, and the memory mutation made explicit. -/
abbrev Handler := Memory → Memory × Event

/-- Mirrors the `AgentEngine` struct of `src/src/engine.rs` (lines 14-22).
NOTE: that struct has no checkpoint-store and no session-id field, although
`AgentBuilder::build` (`src/src/builder.rs` lines 357-366) passes both to an
8-argument `AgentEngine::new` that `src/src/engine.rs` does not declare. The
`handlers` map is an association list keyed by state name. -/
structure Engine where
  memory         : Memory
  state          : State
  transitions    : TransitionTable
  handlers       : List (String × Handler)
  terminalStates : List String

/-- Mirrors `HashSet<String>::contains` on the engine's `terminal_states`. -/
def terminalContains (terminal : List String) (s : String) : Bool :=
  terminal.any (fun x => decide (x = s))

/-- Mirrors `AgentEngine::step` from `src/src/engine.rs` (lines 77-104):
look up the handler by state name (missing -> `NoHandlerForState`), run it,
look up the transition (missing -> `InvalidTransition`), assign the next
state. The source performs NO checkpoint work here: the struct has no store
to save to. -/
def Engine.step (e : Engine) : Except AgentError Engine :=
  match assocLookup e.handlers e.state.name with
  | none => .error (.noHandlerForState e.state.name)
  | some handler =>
    let res := handler e.memory
    match lookupTransition e.transitions (e.state, res.2) with
    | none => .error (.invalidTransition e.state res.2)
    | some next => .ok { e with memory := res.1, state := next }

/-- Mirrors `AgentCheckpoint` from `src/src/checkpoint.rs` (timestamps as
`Nat`, see the header). -/
structure AgentCheckpoint where
  checkpointId : String
  sessionId    : String
  state        : State
  memory       : Memory
  timestamp    : Nat
deriving DecidableEq, Repr

/-- Observation of `AgentEngine::step` together with the contents of any
configured checkpoint store: since the `AgentEngine` of `src/src/engine.rs`
holds no store reference and its `step` contains no save call, the store
contents pass through every step unchanged. -/
def Engine.stepWithStore (e : Engine) (store : List AgentCheckpoint) :
    Except AgentError (Engine × List AgentCheckpoint) :=
  match e.step with
  | .error err => .error err
  | .ok e' => .ok (e', store)

/-- Mirrors the `while` loop of `AgentEngine::run` (`src/src/engine.rs`
lines 47-59): `iterations` is the loop counter, `cap` the safety cap
`max_steps * 3` computed once on entry. Each pass first checks the terminal
set, then increments the counter and fails with `SafetyCapExceeded` when the
incremented counter exceeds the cap, and otherwise performs one `step`. -/
def Engine.runLoop (cap : Nat) (e : Engine) (iterations : Nat) :
    Except AgentError Engine :=
  if terminalContains e.terminalStates e.state.name then .ok e
  else if h : cap < iterations + 1 then
    .error (.safetyCapExceeded (iterations + 1))
  else
    match e.step with
    | .error err => .error err
    | .ok e' => Engine.runLoop cap e' (iterations + 1)
termination_by cap + 1 - iterations
decreasing_by omega

/-- Mirrors `AgentEngine::run` from `src/src/engine.rs` (lines 47-73),
including the exit processing after the loop. -/
def Engine.run (e : Engine) : Except AgentError String :=
  let cap := e.memory.config.maxSteps * 3
  match Engine.runLoop cap e 0 with
  | .error err => .error err
  | .ok e' =>
    if e'.state = State.done then
      .ok (e'.memory.finalAnswer.getD "[No answer produced]")
    else if e'.state = State.error then
      .error (.agentFailed (e'.memory.error.getD "Unknown error"))
    else
      .ok (e'.memory.finalAnswer.getD
        ("[Terminated in state: " ++ e'.state.name ++ "]"))

/-- Instrumented copy of `Engine.runLoop` that additionally counts how many
times `AgentEngine::step` is invoked. -/
def Engine.runLoopCount (cap : Nat) (e : Engine) (iterations : Nat) :
    Except AgentError Engine × Nat :=
  if terminalContains e.terminalStates e.state.name then (.ok e, 0)
  else if h : cap < iterations + 1 then
    (.error (.safetyCapExceeded (iterations + 1)), 0)
  else
    match e.step with
    | .error err => (.error err, 1)
    | .ok e' =>
      let rest := Engine.runLoopCount cap e' (iterations + 1)
      (rest.1, rest.2 + 1)
termination_by cap + 1 - iterations
decreasing_by omega

/-- Iterating `AgentEngine::step` from an engine configuration: `iterStep k`
is the engine after `k` successful steps (or the first step error). -/
def Engine.iterStep (e : Engine) : Nat → Except AgentError Engine
  | 0 => .ok e
  | k + 1 =>
    match e.step with
    | .error err => .error err
    | .ok e' => e'.iterStep k

/-- Decidable check: after `k` steps the engine is still running (the steps
all succeeded and the reached state is not terminal). -/
def Engine.nonTerminalAfter (e : Engine) (k : Nat) : Bool :=
  match e.iterStep k with
  | .ok e' => !terminalContains e'.terminalStates e'.state.name
  | .error _ => false

/-- Rust `str::starts_with` on the embedded strings. -/
def strStartsWith (s p : String) : Bool := p.data.isPrefixOf s.data

/-- Mirrors `PlanningState::handle_tool_call` from
`src/src/states/planning.rs` (lines 28-75): blacklist check, then the
low-confidence retry check, then the approval-policy check, then acceptance
of the tool call. -/
def PlanningState.handleToolCall (memory : Memory) (tool : ToolCall)
    (confidence : Rat) : Memory × Event :=
  if memory.blacklistedTools.any (fun n => decide (n = tool.name)) then
    (memory.log "Planning" "TOOL_BLACKLISTED", Event.toolBlacklisted)
  else if confidence < memory.config.confidenceThreshold ∧
      memory.retryCount < memory.config.maxRetries then
    (({ memory with
        retryCount := memory.retryCount + 1,
        confidenceScore := confidence }).log "Planning" "LOW_CONFIDENCE",
      Event.lowConfidence)
  else if memory.approvalPolicy.needsApproval tool.name tool.args then
    (({ memory with
        pendingApproval := some
          { toolName := tool.name, toolArgs := tool.args,
            riskLevel := RiskLevel.high,
            reason := "Policy-mandated approval" },
        currentToolCall := some tool,
        confidenceScore := confidence }).log "Planning" "APPROVAL_REQUIRED",
      Event.humanApprovalRequired)
  else
    (({ memory with
        currentToolCall := some tool,
        pendingToolCalls := [],
        confidenceScore := confidence }).log "Planning" "LLM_TOOL_CALL",
      Event.llmToolCall)

/-- History entry built from a parallel `ToolResult` by
`ObservingState::handle` (`src/src/states/observing.rs` lines 47-63). -/
def ToolResult.toHistoryEntry (res : ToolResult) (step : Nat) : HistoryEntry :=
  { step := step,
    tool := { name := res.toolName, args := res.toolArgs, id := res.id },
    observation := res.output, success := res.success }

/-- Body of the `for res in parallel` drain loop of `ObservingState::handle`
(`src/src/states/observing.rs` lines 48-63): log and append one history
entry for a parallel `ToolResult`. -/
def ObservingState.commitParallel (m : Memory) (res : ToolResult) : Memory :=
  let m := m.log "Observing" "HISTORY_COMMIT_PARALLEL"
  { m with history := m.history ++ [res.toHistoryEntry m.step] }

/-- Mirrors `ObservingState::handle` from `src/src/states/observing.rs`
(lines 15-75): take `current_tool_call` and `last_observation` and, when both
are present, append one history entry classified by the `"SUCCESS:"` prefix;
drain `parallel_results` into history entries with the same step number;
then choose `NeedsReflection` or `Continue`. -/
def ObservingState.handle (memory : Memory) : Memory × Event :=
  let toolCall := memory.currentToolCall
  let observation := memory.lastObservation
  let m1 := { memory with currentToolCall := none, lastObservation := none }
  let m2 :=
    match toolCall, observation with
    | some tool, some obs =>
      let success := strStartsWith obs "SUCCESS:"
      let entry : HistoryEntry :=
        { step := m1.step, tool := tool, observation := obs,
          success := success }
      ({ m1 with history := m1.history ++ [entry] }).log
        "Observing" "HISTORY_COMMIT"
    | _, _ => m1
  let parallel := m2.parallelResults
  let m3 := { m2 with parallelResults := [] }
  let m4 := parallel.foldl ObservingState.commitParallel m3
  let reflectInterval : Nat := m4.config.reflectEveryNSteps
  if 0 < reflectInterval ∧ m4.step % reflectInterval = 0 then
    (m4.log "Observing" "NEEDS_REFLECTION", Event.needsReflection)
  else
    (m4, Event.continueEvent)

/-- Tool execution model: `ToolRegistry::execute(name, args)` from
`src/src/tools.rs`, abstracted as a function parameter exactly as
`ParallelActingState::handle` receives the registry. -/
abbrev Executor := String → Args → Except String String

/-- Result `ParallelActingState::handle` produces for one pending call
(the body of the `spawn_blocking` closure, `src/src/states/parallel_acting.rs`
lines 38-74). Wall-clock latency is not modelled (0). -/
def ParallelActingState.runOne (execute : Executor) (toolCall : ToolCall) :
    ToolResult :=
  match execute toolCall.name toolCall.args with
  | .ok res =>
    ToolResult.mkSuccess toolCall.name toolCall.args toolCall.id res 0
  | .error err =>
    ToolResult.mkFailure toolCall.name toolCall.args toolCall.id err 0

/-- Mirrors `ParallelActingState::handle` from
`src/src/states/parallel_acting.rs` (lines 18-99): every pending call is
dispatched and `join_all` waits for every task (no fail-fast) preserving the
spawn order, so the collection loop sees one `Ok` result per pending call in
`pending_tool_calls` order (the tasks cannot panic: the executor is total).
Results replace `parallel_results`, the pending list is cleared, and the
event is `ToolSuccess` when at least one call succeeded or the list was
empty, else `ToolFailure`. -/
def ParallelActingState.handle (execute : Executor) (memory : Memory) :
    Memory × Event :=
  let pending := memory.pendingToolCalls
  let count := pending.length
  let m1 := memory.log "ParallelActing" "PARALLEL_ACTING_START"
  let toolResults := pending.map (ParallelActingState.runOne execute)
  let successCount := (toolResults.filter (·.success)).length
  let m2 := ({ m1 with
    parallelResults := toolResults,
    pendingToolCalls := [] }).log "ParallelActing" "PARALLEL_ACTING_DONE"
  if 0 < successCount ∨ count = 0 then (m2, Event.toolSuccess)
  else (m2, Event.toolFailure)

/-- Rust `str::to_lowercase` restricted to the ASCII patterns the retry
wrapper matches against. -/
def strToLower (s : String) : String := ⟨s.data.map Char.toLower⟩

/-- Rust `str::contains(pattern)` (substring containment). -/
def strContainsSub (h n : String) : Bool :=
  (List.range (h.data.length + 1)).any
    (fun i => n.data.isPrefixOf (h.data.drop i))

/-- Mirrors `RetryingLlmCaller::is_auth_error` from `src/src/llm/retry.rs`
(lines 21-29). -/
def RetryingLlmCaller.isAuthError (err : String) : Bool :=
  let lower := strToLower err
  strContainsSub lower "401" || strContainsSub lower "403" ||
  strContainsSub lower "authentication" ||
  strContainsSub lower "unauthorized" ||
  strContainsSub lower "forbidden" ||
  strContainsSub lower "invalid api key"

/-- Mirrors `RetryingLlmCaller::is_rate_limit_error` from
`src/src/llm/retry.rs` (lines 31-41). -/
def RetryingLlmCaller.isRateLimitError (err : String) : Bool :=
  let lower := strToLower err
  strContainsSub lower "429" || strContainsSub lower "rate limit" ||
  strContainsSub lower "too many requests" ||
  strContainsSub lower "too_many_tokens_error" ||
  strContainsSub lower "token_quota_exceeded" ||
  strContainsSub lower "too_many_requests_error" ||
  strContainsSub lower "queue_exceeded" ||
  strContainsSub lower "limit exceeded"

/-- Observable outcome of `RetryingLlmCaller::call_async`: final result,
number of invocations of the inner caller, and the seconds slept between
consecutive attempts (in order). -/
structure RetryOutcome where
  result : Except String LlmResponse
  calls  : Nat
  sleeps : List Nat
deriving Repr

/-- Error message built after the retry loop exhausts all attempts
(`src/src/llm/retry.rs` lines 96-105). -/
def finalErrorMessage (rateLimited : Bool) (maxRetries : Nat)
    (lastErr : String) : String :=
  (if rateLimited then "LLM RATE LIMIT EXCEEDED" else "LLM failed") ++
    " after " ++ toString maxRetries ++ " retries — last error: " ++ lastErr

/-- Mirrors the `for attempt in 0..=self.max_retries` loop of
`RetryingLlmCaller::call_async` (`src/src/llm/retry.rs` lines 46-106). The
inner caller is modelled as a function from the attempt index to its result;
`rateLimited` accumulates the `rate_limited` flag. On success or on an auth
error the loop returns at once; otherwise, while attempts remain, it sleeps
`min(base << attempt, 60)` seconds (base 5 for a rate-limit error, else 1)
and retries; after the last attempt it returns the formatted failure. The
loop guard `attempt < max_retries` is compiled to the remaining-attempts
counter `remaining = max_retries - attempt`, which the recursion consumes:
`remaining` is positive exactly when `attempt < max_retries`. -/
def retryGo (inner : Nat → Except String LlmResponse) (maxRetries : Nat) :
    (remaining attempt : Nat) → Bool → RetryOutcome
  | remaining, attempt, rateLimited =>
    match inner attempt with
    | .ok resp => { result := .ok resp, calls := 1, sleeps := [] }
    | .error e =>
      if RetryingLlmCaller.isAuthError e then
        { result := .error e, calls := 1, sleeps := [] }
      else
        let rateLimited := rateLimited || RetryingLlmCaller.isRateLimitError e
        match remaining with
        | r + 1 =>
          let baseWait : Nat :=
            if RetryingLlmCaller.isRateLimitError e then 5 else 1
          let waitSecs := min (baseWait <<< attempt) 60
          let rest := retryGo inner maxRetries r (attempt + 1) rateLimited
          { result := rest.result, calls := rest.calls + 1,
            sleeps := waitSecs :: rest.sleeps }
        | 0 =>
          { result := .error (finalErrorMessage rateLimited maxRetries e),
            calls := 1, sleeps := [] }

/-- Mirrors `RetryingLlmCaller::call_async` from `src/src/llm/retry.rs`:
the loop starts at `attempt = 0` with all `max_retries` retries remaining
and the `rate_limited` flag clear. -/
def RetryingLlmCaller.callAsync (inner : Nat → Except String LlmResponse)
    (maxRetries : Nat) : RetryOutcome :=
  retryGo inner maxRetries maxRetries 0 false

/-- Mirrors `MemoryCheckpointStore::save` (`src/src/checkpoint.rs`
lines 47-53): push onto the session's vector. The store state is the single
save-ordered list of all checkpoints; a session's vector is its filtered
sublist, whose entry order the push preserves. `FileCheckpointStore::save`
(lines 95-107, read the session's JSON array, push, rewrite) has exactly the
same list semantics. -/
def MemoryCheckpointStore.save (store : List AgentCheckpoint)
    (cp : AgentCheckpoint) : List AgentCheckpoint :=
  store ++ [cp]

/-- Mirrors `MemoryCheckpointStore::load_latest` (`src/src/checkpoint.rs`
lines 55-58): `store.get(session_id).and_then(|v| v.last().cloned())` — the
LAST checkpoint in save order, not a timestamp maximum.
`FileCheckpointStore::load_latest` (lines 109-115, `checkpoints.last()`) is
the same function of the store state. -/
def MemoryCheckpointStore.loadLatest (store : List AgentCheckpoint)
    (sessionId : String) : Option AgentCheckpoint :=
  (store.filter (fun c => decide (c.sessionId = sessionId))).getLast?

/-- Mirrors `SqliteCheckpointStore::load_latest` (`src/src/checkpoint.rs`
lines 190-214): `ORDER BY timestamp DESC LIMIT 1` over the session's rows,
i.e. a row of maximal timestamp (RFC 3339 strings of UTC instants compare in
timestamp order; among equal timestamps SQLite's pick is unspecified and is
determinized here to the first-saved one). -/
def SqliteCheckpointStore.loadLatest (store : List AgentCheckpoint)
    (sessionId : String) : Option AgentCheckpoint :=
  let rows := store.filter (fun c => decide (c.sessionId = sessionId))
  rows.foldl (fun acc c =>
    match acc with
    | none => some c
    | some best => if best.timestamp < c.timestamp then some c else some best)
    none

end Agentsm

namespace Agentsm

/-- Fixture: a trivial `Idle` handler that, like `IdleState` in
`src/src/states/idle.rs`, emits `Start`. -/
def idleHandler : Handler := fun m => (m, Event.start)

/-- Fixture: a `Planning` handler that always emits `AnswerTooShort`
(the event `PlanningState` emits for a too-short final answer), which the
default table routes back to `Planning`, so the engine loops forever. -/
def loopingPlanningHandler : Handler := fun m => (m, Event.answerTooShort)

/-- Fixture: an engine as `AgentBuilder::build` wires it (default transition
table, default terminal states `Done`/`Error`, initial state `Idle`), with a
fresh memory. -/
def demoEngine : Engine :=
  { memory := Memory.new "demo", state := State.idle,
    transitions := buildTransitionTable,
    handlers := [("Idle", idleHandler)],
    terminalStates := ["Done", "Error"] }

/-- Fixture: a checkpoint already present in a configured store. -/
def preexistingCheckpoint : AgentCheckpoint :=
  { checkpointId := "c0", sessionId := "sess", state := State.idle,
    memory := Memory.new "demo", timestamp := 0 }

/-- Fixture: an engine that never reaches a terminal state (its `Planning`
handler loops via `AnswerTooShort`), with `max_steps = 1`, so the safety cap
is 3. -/
def loopingEngine : Engine :=
  { memory := { Memory.new "loop" with
      config := { AgentConfig.default with maxSteps := 1 } },
    state := State.idle,
    transitions := buildTransitionTable,
    handlers := [("Idle", idleHandler), ("Planning", loopingPlanningHandler)],
    terminalStates := ["Done", "Error"] }

/-- Fixture: an engine already in the terminal `Done` state with a final
answer present. -/
def doneEngine : Engine :=
  { memory := { Memory.new "answered" with finalAnswer := some "forty-two" },
    state := State.done, transitions := buildTransitionTable, handlers := [],
    terminalStates := ["Done", "Error"] }

/-- Fixture for the checkpoint-ordering claim: an earlier save carrying the
LATER timestamp. -/
def checkpointHighTs : AgentCheckpoint :=
  { checkpointId := "a", sessionId := "s", state := State.planning,
    memory := Memory.new "t", timestamp := 2 }

/-- Fixture for the checkpoint-ordering claim: a later save carrying the
EARLIER timestamp. -/
def checkpointLowTs : AgentCheckpoint :=
  { checkpointId := "b", sessionId := "s", state := State.acting,
    memory := Memory.new "t", timestamp := 1 }

/-- Fixture: memory with a blacklisted tool, for the planning-dispatch
witness. -/
def blacklistMemory : Memory :=
  { Memory.new "t" with blacklistedTools := ["rm"] }

/-- Fixture: memory holding a finished single tool call and one parallel
result, for the observing witness. -/
def observeMemory : Memory :=
  { Memory.new "t" with
    step := 3,
    currentToolCall := some { name := "dummy", args := [], id := some "id1" },
    lastObservation := some "SUCCESS: ok",
    parallelResults := [ToolResult.mkSuccess "p" [] (some "id2") "fine" 0] }

/-- Fixture: an inner LLM caller that always fails with an auth error. -/
def authFailingInner : Nat → Except String LlmResponse :=
  fun _ => .error "401 Unauthorized"

/-- Fixture: an inner LLM caller that always fails with a rate-limit
error. -/
def rateLimitedInner : Nat → Except String LlmResponse :=
  fun _ => .error "429 rate limit"

end Agentsm

namespace Agentsm

/-- Helper: membership form of the `HashSet::contains` blacklist test. -/
theorem any_eq_mem (l : List String) (s : String) :
    l.any (fun n => decide (n = s)) = true ↔ s ∈ l := by
  simp only [List.any_eq_true, decide_eq_true_eq]
  constructor
  · rintro ⟨x, hx, rfl⟩
    exact hx
  · intro h
    exact ⟨s, h, rfl⟩

/-- Helper: in a save-order list whose timestamps are non-decreasing, the
last element has the maximal timestamp. -/
theorem pairwise_le_getLast? (l : List AgentCheckpoint)
    (h : l.Pairwise (fun a b => a.timestamp ≤ b.timestamp))
    (cp : AgentCheckpoint) (hlast : l.getLast? = some cp) :
    ∀ c ∈ l, c.timestamp ≤ cp.timestamp := by
  induction l with
  | nil => simp at hlast
  | cons a t ih =>
    cases t with
    | nil =>
      simp only [List.getLast?_singleton, Option.some.injEq] at hlast
      subst hlast
      intro c hc
      simp only [List.mem_singleton] at hc
      subst hc
      exact le_refl _
    | cons b t2 =>
      rw [List.getLast?_cons_cons] at hlast
      have hp := List.pairwise_cons.mp h
      have hcp_mem : cp ∈ b :: t2 := List.mem_of_mem_getLast? hlast
      intro c hc
      rcases List.mem_cons.mp hc with rfl | hc2
      · exact hp.1 cp hcp_mem
      · exact ih hp.2 hlast c hc2

/-- Helper: the fold implementing `ORDER BY timestamp DESC LIMIT 1` returns
an element of the row list whose timestamp dominates the accumulator and
every row. -/
theorem sqliteFold_spec (rows : List AgentCheckpoint)
    (best : AgentCheckpoint) :
    ∃ r, rows.foldl (fun acc c =>
        match acc with
        | none => some c
        | some best =>
          if best.timestamp < c.timestamp then some c else some best)
        (some best) = some r ∧
      (r = best ∨ r ∈ rows) ∧ best.timestamp ≤ r.timestamp ∧
      ∀ c ∈ rows, c.timestamp ≤ r.timestamp := by
  induction rows generalizing best with
  | nil => exact ⟨best, rfl, Or.inl rfl, le_refl _, by simp⟩
  | cons c t ih =>
    simp only [List.foldl_cons]
    by_cases hlt : best.timestamp < c.timestamp
    · rw [if_pos hlt]
      obtain ⟨r, hr, hmem, hle, hall⟩ := ih c
      refine ⟨r, hr, ?_, ?_, ?_⟩
      · rcases hmem with rfl | hm
        · exact Or.inr (List.mem_cons_self _ _)
        · exact Or.inr (List.mem_cons_of_mem _ hm)
      · exact le_of_lt (lt_of_lt_of_le hlt hle)
      · intro x hx
        rcases List.mem_cons.mp hx with rfl | hx2
        · exact hle
        · exact hall x hx2
    · rw [if_neg hlt]
      obtain ⟨r, hr, hmem, hle, hall⟩ := ih best
      refine ⟨r, hr, ?_, hle, ?_⟩
      · rcases hmem with rfl | hm
        · exact Or.inl rfl
        · exact Or.inr (List.mem_cons_of_mem _ hm)
      · intro x hx
        rcases List.mem_cons.mp hx with rfl | hx2
        · exact le_trans (le_of_not_lt hlt) hle
        · exact hall x hx2

/-- C1: the claim states that the transition table built at engine
construction, before user edges are merged — i.e. the table returned by
`build_transition_table()` (`src/src/transitions.rs` lines 14-45), which
`AgentBuilder::build` (`src/src/builder.rs` lines 352-355) takes as the base
before inserting custom transitions — contains the spec's default edges for
`ParallelActing` and `WaitingForHuman`. It does not: every one of those seven
lookups misses (while e.g. the `(Planning, LlmToolCall)` edge is present),
so with no user-supplied edges the engine raises `InvalidTransition` on any
parallel or human-approval flow. -/
theorem c1_default_table_missing_parallel_and_human_edges :
    lookupTransition buildTransitionTable
      (State.planning, Event.llmParallelToolCalls) = none ∧
    lookupTransition buildTransitionTable
      (State.planning, Event.humanApprovalRequired) = none ∧
    lookupTransition buildTransitionTable
      (State.parallelActing, Event.toolSuccess) = none ∧
    lookupTransition buildTransitionTable
      (State.parallelActing, Event.toolFailure) = none ∧
    lookupTransition buildTransitionTable
      (State.waitingForHuman, Event.humanApproved) = none ∧
    lookupTransition buildTransitionTable
      (State.waitingForHuman, Event.humanRejected) = none ∧
    lookupTransition buildTransitionTable
      (State.waitingForHuman, Event.humanModified) = none ∧
    lookupTransition buildTransitionTable
      (State.planning, Event.llmToolCall) = some State.acting := by
  decide

/-- C2: the claim states that every engine step that finds a handler and a
valid transition saves a checkpoint to a configured store. The `AgentEngine`
of `src/src/engine.rs` (lines 14-22) holds no checkpoint store or session id
at all and its `step` (lines 77-104) performs no save: here a step of
`demoEngine` succeeds with the transition `Idle → Planning`, yet the
configured store's contents — whether empty or already holding a
checkpoint — are unchanged, and in particular no checkpoint carrying the
post-transition state `Planning` is ever saved. -/
theorem c2_step_saves_no_checkpoint :
    Engine.stepWithStore demoEngine [] =
      .ok ({ demoEngine with state := State.planning }, []) ∧
    Engine.stepWithStore demoEngine [preexistingCheckpoint] =
      .ok ({ demoEngine with state := State.planning },
        [preexistingCheckpoint]) := by
  exact ⟨rfl, rfl⟩

/-- C9 counterexample: the claim states `LoadLatest` returns the
highest-timestamp checkpoint of the session for every backend and every save
sequence. For the in-memory (and file) backend this fails when a later save
carries an earlier timestamp: after saving `checkpointHighTs` (timestamp 2)
and then `checkpointLowTs` (timestamp 1) under session `"s"`, `load_latest`
returns the timestamp-1 checkpoint although a timestamp-2 checkpoint of the
same session is in the store. -/
theorem c9_load_latest_counterexample :
    MemoryCheckpointStore.loadLatest
      (MemoryCheckpointStore.save
        (MemoryCheckpointStore.save [] checkpointHighTs) checkpointLowTs)
      "s" = some checkpointLowTs ∧
    checkpointLowTs.timestamp < checkpointHighTs.timestamp ∧
    checkpointHighTs.sessionId = "s" := by
  refine ⟨?_, by decide, rfl⟩
  rfl

/-- C9 (amended): for the in-memory and file backends `LoadLatest` returns
the LAST-SAVED checkpoint of the session (`None` exactly when the session has
none), and ONLY under the extra hypothesis that the session's saves happen in
non-decreasing timestamp order — as the engine produces them — is that
checkpoint one of maximal timestamp; the `None`-iff-empty and membership
parts, and both SQLite conjuncts (a maximal-timestamp checkpoint of the
session, `None` iff the session has none), hold unconditionally, for every
save order. -/
theorem c9_load_latest_amended (store : List AgentCheckpoint)
    (sessionId : String) :
    (MemoryCheckpointStore.loadLatest store sessionId = none ↔
      store.filter (fun c => decide (c.sessionId = sessionId)) = []) ∧
    (∀ cp, MemoryCheckpointStore.loadLatest store sessionId = some cp →
      cp ∈ store.filter (fun c => decide (c.sessionId = sessionId))) ∧
    ((store.filter (fun c => decide (c.sessionId = sessionId))).Pairwise
        (fun a b => a.timestamp ≤ b.timestamp) →
      ∀ cp, MemoryCheckpointStore.loadLatest store sessionId = some cp →
      ∀ c ∈ store.filter (fun c => decide (c.sessionId = sessionId)),
        c.timestamp ≤ cp.timestamp) ∧
    (SqliteCheckpointStore.loadLatest store sessionId = none ↔
      store.filter (fun c => decide (c.sessionId = sessionId)) = []) ∧
    (∀ cp, SqliteCheckpointStore.loadLatest store sessionId = some cp →
      cp ∈ store.filter (fun c => decide (c.sessionId = sessionId)) ∧
      ∀ c ∈ store.filter (fun c => decide (c.sessionId = sessionId)),
        c.timestamp ≤ cp.timestamp) := by
  refine ⟨?_, ?_, ?_, ?_, ?_⟩
  · unfold MemoryCheckpointStore.loadLatest
    exact List.getLast?_eq_none_iff
  · intro cp hcp
    unfold MemoryCheckpointStore.loadLatest at hcp
    exact List.mem_of_mem_getLast? hcp
  · intro hmono cp hcp
    unfold MemoryCheckpointStore.loadLatest at hcp
    exact pairwise_le_getLast? _ hmono cp hcp
  · unfold SqliteCheckpointStore.loadLatest
    cases hrows : store.filter (fun c => decide (c.sessionId = sessionId)) with
    | nil => simp
    | cons a t =>
      simp only [List.foldl_cons]
      obtain ⟨r, hr, _, _, _⟩ := sqliteFold_spec t a
      constructor
      · intro hn
        rw [hr] at hn
        exact absurd hn (by simp)
      · intro hn
        exact absurd hn (by simp)
  · intro cp hcp
    unfold SqliteCheckpointStore.loadLatest at hcp
    rcases hrows : store.filter (fun c => decide (c.sessionId = sessionId)) with
      _ | ⟨a, t⟩
    · rw [hrows] at hcp
      simp at hcp
    · rw [hrows] at hcp
      simp only [List.foldl_cons] at hcp
      obtain ⟨r, hr, hmem, hle, hall⟩ := sqliteFold_spec t a
      rw [hr] at hcp
      injection hcp with hcp
      subst hcp
      rw [hrows]
      constructor
      · rcases hmem with rfl | hm
        · exact List.mem_cons_self _ _
        · exact List.mem_cons_of_mem _ hm
      · intro c hc
        rcases List.mem_cons.mp hc with rfl | hc2
        · exact hle
        · exact hall c hc2

/-- C9 witness: the amended theorem applied to the monotone save sequence
`checkpointLowTs` (timestamp 1) then `checkpointHighTs` (timestamp 2) under
session `"s"`: the loaded checkpoint is the timestamp-2 one and its
timestamp dominates the other save of the session. -/
theorem c9_load_latest_amended_witness :
    MemoryCheckpointStore.loadLatest
      (MemoryCheckpointStore.save
        (MemoryCheckpointStore.save [] checkpointLowTs) checkpointHighTs)
      "s" = some checkpointHighTs ∧
    checkpointLowTs.timestamp ≤ checkpointHighTs.timestamp := by
  constructor
  · rfl
  · refine (c9_load_latest_amended
      (MemoryCheckpointStore.save
        (MemoryCheckpointStore.save [] checkpointLowTs) checkpointHighTs)
      "s").2.2.1 (by decide) checkpointHighTs (by rfl)
      checkpointLowTs ?_
    show checkpointLowTs ∈ checkpointLowTs :: [checkpointHighTs]
    exact List.mem_cons_self _ _

/-- C10: under `AskAbove(threshold)` the `needs_approval` decision from
`src/src/human.rs` ignores the tool name and its arguments and equals the
fixed comparison `Medium >= threshold`; hence the default policy
`AskAbove(High)` never requires approval, while `AskAbove(Medium)` and
`AskAbove(Low)` require approval for every tool. -/
theorem c10_ask_above_policy (toolName : String) (args : Args)
    (threshold : RiskLevel) :
    ApprovalPolicy.needsApproval (.askAbove threshold) toolName args =
      RiskLevel.medium.ge threshold ∧
    ApprovalPolicy.needsApproval ApprovalPolicy.default toolName args =
      false ∧
    ApprovalPolicy.needsApproval (.askAbove .medium) toolName args = true ∧
    ApprovalPolicy.needsApproval (.askAbove .low) toolName args = true := by
  exact ⟨rfl, rfl, rfl, rfl⟩

end Agentsm

namespace Agentsm

/-- Helper: the parallel-drain loop leaves `current_tool_call` unchanged. -/
@[simp] theorem foldl_commitParallel_currentToolCall (l : List ToolResult)
    (m : Memory) :
    (l.foldl ObservingState.commitParallel m).currentToolCall =
      m.currentToolCall := by
  induction l generalizing m with
  | nil => rfl
  | cons r t ih => simp [List.foldl_cons, ih, ObservingState.commitParallel,
      Memory.log]

/-- Helper: the parallel-drain loop leaves `last_observation` unchanged. -/
@[simp] theorem foldl_commitParallel_lastObservation (l : List ToolResult)
    (m : Memory) :
    (l.foldl ObservingState.commitParallel m).lastObservation =
      m.lastObservation := by
  induction l generalizing m with
  | nil => rfl
  | cons r t ih => simp [List.foldl_cons, ih, ObservingState.commitParallel,
      Memory.log]

/-- Helper: the parallel-drain loop leaves `parallel_results` unchanged. -/
@[simp] theorem foldl_commitParallel_parallelResults (l : List ToolResult)
    (m : Memory) :
    (l.foldl ObservingState.commitParallel m).parallelResults =
      m.parallelResults := by
  induction l generalizing m with
  | nil => rfl
  | cons r t ih => simp [List.foldl_cons, ih, ObservingState.commitParallel,
      Memory.log]

/-- Helper: the parallel-drain loop leaves `step` unchanged. -/
@[simp] theorem foldl_commitParallel_step (l : List ToolResult) (m : Memory) :
    (l.foldl ObservingState.commitParallel m).step = m.step := by
  induction l generalizing m with
  | nil => rfl
  | cons r t ih => simp [List.foldl_cons, ih, ObservingState.commitParallel,
      Memory.log]

/-- Helper: the parallel-drain loop leaves `config` unchanged. -/
@[simp] theorem foldl_commitParallel_config (l : List ToolResult)
    (m : Memory) :
    (l.foldl ObservingState.commitParallel m).config = m.config := by
  induction l generalizing m with
  | nil => rfl
  | cons r t ih => simp [List.foldl_cons, ih, ObservingState.commitParallel,
      Memory.log]

/-- Helper: the parallel-drain loop appends exactly one history entry per
parallel result, in order, all carrying the current step number. -/
@[simp] theorem foldl_commitParallel_history (l : List ToolResult)
    (m : Memory) :
    (l.foldl ObservingState.commitParallel m).history =
      m.history ++ l.map (fun r => r.toHistoryEntry m.step) := by
  induction l generalizing m with
  | nil => simp
  | cons r t ih =>
    simp [List.foldl_cons, ih, ObservingState.commitParallel, Memory.log]

/-- C3: `PlanningState::handle_tool_call` dispatches in the fixed order the
claim states: blacklist first (no tool-call fields change), then the
low-confidence retry (retry count goes up by exactly one), then the approval
hand-off (`pending_approval` and `current_tool_call` set), and finally
acceptance (`current_tool_call` set, `pending_tool_calls` cleared). -/
theorem c3_planning_dispatch (memory : Memory) (tool : ToolCall)
    (confidence : Rat) :
    (tool.name ∈ memory.blacklistedTools →
      (PlanningState.handleToolCall memory tool confidence).2 =
        Event.toolBlacklisted ∧
      (PlanningState.handleToolCall memory tool confidence).1.currentToolCall =
        memory.currentToolCall ∧
      (PlanningState.handleToolCall memory tool confidence).1.pendingToolCalls =
        memory.pendingToolCalls ∧
      (PlanningState.handleToolCall memory tool confidence).1.pendingApproval =
        memory.pendingApproval ∧
      (PlanningState.handleToolCall memory tool confidence).1.retryCount =
        memory.retryCount) ∧
    (tool.name ∉ memory.blacklistedTools →
      confidence < memory.config.confidenceThreshold →
      memory.retryCount < memory.config.maxRetries →
      (PlanningState.handleToolCall memory tool confidence).2 =
        Event.lowConfidence ∧
      (PlanningState.handleToolCall memory tool confidence).1.retryCount =
        memory.retryCount + 1 ∧
      (PlanningState.handleToolCall memory tool confidence).1.currentToolCall =
        memory.currentToolCall ∧
      (PlanningState.handleToolCall memory tool confidence).1.pendingToolCalls =
        memory.pendingToolCalls) ∧
    (tool.name ∉ memory.blacklistedTools →
      ¬(confidence < memory.config.confidenceThreshold ∧
        memory.retryCount < memory.config.maxRetries) →
      memory.approvalPolicy.needsApproval tool.name tool.args = true →
      (PlanningState.handleToolCall memory tool confidence).2 =
        Event.humanApprovalRequired ∧
      (PlanningState.handleToolCall memory tool confidence).1.pendingApproval =
        some { toolName := tool.name, toolArgs := tool.args,
               riskLevel := RiskLevel.high,
               reason := "Policy-mandated approval" } ∧
      (PlanningState.handleToolCall memory tool confidence).1.currentToolCall =
        some tool) ∧
    (tool.name ∉ memory.blacklistedTools →
      ¬(confidence < memory.config.confidenceThreshold ∧
        memory.retryCount < memory.config.maxRetries) →
      memory.approvalPolicy.needsApproval tool.name tool.args = false →
      (PlanningState.handleToolCall memory tool confidence).2 =
        Event.llmToolCall ∧
      (PlanningState.handleToolCall memory tool confidence).1.currentToolCall =
        some tool ∧
      (PlanningState.handleToolCall memory tool confidence).1.pendingToolCalls =
        []) := by
  refine ⟨?_, ?_, ?_, ?_⟩
  · intro hbl
    have hb : memory.blacklistedTools.any (fun n => decide (n = tool.name)) =
        true := (any_eq_mem _ _).mpr hbl
    simp [PlanningState.handleToolCall, hb, Memory.log]
  · intro hbl hconf hretry
    have hb : ¬ memory.blacklistedTools.any (fun n => decide (n = tool.name)) =
        true := fun hx => hbl ((any_eq_mem _ _).mp hx)
    simp [PlanningState.handleToolCall, hb, hconf, hretry, Memory.log]
  · intro hbl hlow happ
    have hb : ¬ memory.blacklistedTools.any (fun n => decide (n = tool.name)) =
        true := fun hx => hbl ((any_eq_mem _ _).mp hx)
    simp [PlanningState.handleToolCall, hb, hlow, happ, Memory.log]
  · intro hbl hlow happ
    have hb : ¬ memory.blacklistedTools.any (fun n => decide (n = tool.name)) =
        true := fun hx => hbl ((any_eq_mem _ _).mp hx)
    simp [PlanningState.handleToolCall, hb, hlow, happ, Memory.log]

/-- C3 witness: dispatching a blacklisted tool (`"rm"` with blacklist
`["rm"]`) emits `ToolBlacklisted`. -/
theorem c3_planning_dispatch_witness :
    (PlanningState.handleToolCall blacklistMemory
      { name := "rm", args := [], id := none } 1).2 =
      Event.toolBlacklisted := by
  exact ((c3_planning_dispatch blacklistMemory
    { name := "rm", args := [], id := none } 1).1 (by decide)).1

/-- C6: after `ObservingState::handle`, `current_tool_call` and
`last_observation` are cleared and `parallel_results` is empty; when both
were present on entry, exactly one history entry is appended for the pair,
with the memory's step number and with success decided by the `"SUCCESS:"`
prefix, followed by the drained parallel entries; and the emitted event is
`NeedsReflection` exactly when `reflect_every_n_steps > 0` and
`step % reflect_every_n_steps == 0`, else `Continue`. -/
theorem c6_observing (memory : Memory) :
    (ObservingState.handle memory).1.currentToolCall = none ∧
    (ObservingState.handle memory).1.lastObservation = none ∧
    (ObservingState.handle memory).1.parallelResults = [] ∧
    (∀ tool obs, memory.currentToolCall = some tool →
      memory.lastObservation = some obs →
      (ObservingState.handle memory).1.history =
        memory.history ++
          [{ step := memory.step, tool := tool, observation := obs,
             success := strStartsWith obs "SUCCESS:" }] ++
          memory.parallelResults.map
            (fun r => r.toHistoryEntry memory.step)) ∧
    ((ObservingState.handle memory).2 =
      if 0 < memory.config.reflectEveryNSteps ∧
          memory.step % memory.config.reflectEveryNSteps = 0
      then Event.needsReflection else Event.continueEvent) := by
  refine ⟨?_, ?_, ?_, ?_, ?_⟩
  · rcases hct : memory.currentToolCall with _ | tool <;>
      rcases hlo : memory.lastObservation with _ | obs <;>
      simp [ObservingState.handle, hct, hlo, Memory.log, apply_ite]
  · rcases hct : memory.currentToolCall with _ | tool <;>
      rcases hlo : memory.lastObservation with _ | obs <;>
      simp [ObservingState.handle, hct, hlo, Memory.log, apply_ite]
  · rcases hct : memory.currentToolCall with _ | tool <;>
      rcases hlo : memory.lastObservation with _ | obs <;>
      simp [ObservingState.handle, hct, hlo, Memory.log, apply_ite]
  · intro tool obs hct hlo
    simp [ObservingState.handle, hct, hlo, Memory.log, apply_ite]
  · rcases hct : memory.currentToolCall with _ | tool <;>
      rcases hlo : memory.lastObservation with _ | obs <;>
      simp only [ObservingState.handle, hct, hlo, apply_ite,
        foldl_commitParallel_config, foldl_commitParallel_step,
        Memory.log] <;>
      split_ifs <;> rfl

/-- C6 witness: a memory holding a completed `dummy` tool call with a
`SUCCESS:` observation and one parallel result produces exactly the two
expected history entries, both at step 3. -/
theorem c6_observing_witness :
    (ObservingState.handle observeMemory).1.history =
      [{ step := 3, tool := { name := "dummy", args := [], id := some "id1" },
         observation := "SUCCESS: ok", success := true },
       { step := 3, tool := { name := "p", args := [], id := some "id2" },
         observation := "SUCCESS: fine", success := true }] := by
  have h := (c6_observing observeMemory).2.2.2.1
    { name := "dummy", args := [], id := some "id1" } "SUCCESS: ok" rfl rfl
  rw [h]
  decide

/-- C7: `ParallelActingState::handle` produces one `ToolResult` per pending
call, in `pending_tool_calls` order, stores them in `parallel_results`,
clears `pending_tool_calls`, and emits `ToolSuccess` exactly when at least
one execution succeeded or the pending list was empty (else `ToolFailure`).
All executions run to completion: the result list always has one entry per
pending call, failures included. -/
theorem c7_parallel_acting (execute : Executor) (memory : Memory) :
    (ParallelActingState.handle execute memory).1.parallelResults =
      memory.pendingToolCalls.map (ParallelActingState.runOne execute) ∧
    (ParallelActingState.handle execute memory).1.pendingToolCalls = [] ∧
    ((ParallelActingState.handle execute memory).2 = Event.toolSuccess ↔
      (∃ r ∈ memory.pendingToolCalls.map (ParallelActingState.runOne execute),
        r.success = true) ∨ memory.pendingToolCalls = []) ∧
    ((ParallelActingState.handle execute memory).2 = Event.toolSuccess ∨
      (ParallelActingState.handle execute memory).2 = Event.toolFailure) := by
  have hne : Event.toolFailure ≠ Event.toolSuccess := by decide
  simp only [ParallelActingState.handle]
  split_ifs with hc
  · refine ⟨by simp [Memory.log], by simp [Memory.log], ?_, Or.inl rfl⟩
    simp only [true_iff, eq_self_iff_true]
    rcases hc with hpos | hzero
    · left
      have hfne : (memory.pendingToolCalls.map
          (ParallelActingState.runOne execute)).filter
          (fun r => r.success) ≠ [] := by
        intro hnil
        rw [hnil] at hpos
        simp at hpos
      rcases List.exists_mem_of_ne_nil _ hfne with ⟨r, hr⟩
      rcases List.mem_filter.mp hr with ⟨hmem, hsucc⟩
      exact ⟨r, hmem, hsucc⟩
    · right
      exact List.length_eq_zero.mp hzero
  · refine ⟨by simp [Memory.log], by simp [Memory.log], ?_, Or.inr rfl⟩
    simp only [hne, false_iff]
    push_neg at hc
    rintro (⟨r, hmem, hsucc⟩ | hnil)
    · have : r ∈ (memory.pendingToolCalls.map
          (ParallelActingState.runOne execute)).filter
          (fun r => r.success) := List.mem_filter.mpr ⟨hmem, hsucc⟩
      have hlen := List.length_pos_of_mem this
      omega
    · have := hc.2
      rw [hnil] at this
      simp at this

end Agentsm

namespace Agentsm

/-- Helper: the instrumented loop computes the same result as
`Engine.runLoop` and invokes `step` at most `cap - iterations` times. -/
theorem runLoopCount_spec (cap : Nat) :
    ∀ (fuel : Nat) (e : Engine) (iter : Nat), cap + 1 - iter ≤ fuel →
    (Engine.runLoopCount cap e iter).1 = Engine.runLoop cap e iter ∧
    (Engine.runLoopCount cap e iter).2 ≤ cap - iter := by
  intro fuel
  induction fuel with
  | zero =>
    intro e iter h
    unfold Engine.runLoop Engine.runLoopCount
    split_ifs with h1 h2
    · exact ⟨rfl, Nat.zero_le _⟩
    · exact ⟨rfl, Nat.zero_le _⟩
    · exact absurd h2 (by omega)
  | succ n ih =>
    intro e iter h
    unfold Engine.runLoop Engine.runLoopCount
    split_ifs with h1 h2
    · exact ⟨rfl, Nat.zero_le _⟩
    · exact ⟨rfl, Nat.zero_le _⟩
    · cases hstep : e.step with
      | error err =>
        refine ⟨rfl, ?_⟩
        show (1 : Nat) ≤ cap - iter
        omega
      | ok e' =>
        obtain ⟨ih1, ih2⟩ := ih e' (iter + 1) (by omega)
        constructor
        · exact ih1
        · show (Engine.runLoopCount cap e' (iter + 1)).2 + 1 ≤ cap - iter
          omega

/-- Helper: while every reachable configuration within the cap window is
non-terminal (and every step succeeds), the loop runs into the safety cap
and fails with `SafetyCapExceeded (cap + 1)`. -/
theorem runLoop_cap_exceeded (cap : Nat) :
    ∀ (fuel iter : Nat) (e : Engine), cap + 1 - iter ≤ fuel → iter ≤ cap →
    (∀ k, k < cap + 1 - iter → e.nonTerminalAfter k = true) →
    Engine.runLoop cap e iter = .error (.safetyCapExceeded (cap + 1)) := by
  intro fuel
  induction fuel with
  | zero =>
    intro iter e h1 h2 h3
    exact absurd h2 (by omega)
  | succ n ih =>
    intro iter e h1 h2 h3
    have h0 := h3 0 (by omega)
    unfold Engine.nonTerminalAfter Engine.iterStep at h0
    have hterm : ¬ terminalContains e.terminalStates e.state.name = true := by
      simpa using h0
    unfold Engine.runLoop
    rw [if_neg hterm]
    by_cases hcap : cap < iter + 1
    · rw [dif_pos hcap]
      have heq : iter = cap := by omega
      subst heq
      rfl
    · rw [dif_neg hcap]
      cases hstep : e.step with
      | error err =>
        exfalso
        have h1' := h3 1 (by omega)
        unfold Engine.nonTerminalAfter Engine.iterStep at h1'
        rw [hstep] at h1'
        simp at h1'
      | ok e' =>
        have h3' : ∀ k, k < cap + 1 - (iter + 1) →
            e'.nonTerminalAfter k = true := by
          intro k hk
          have hk3 := h3 (k + 1) (by omega)
          unfold Engine.nonTerminalAfter at hk3 ⊢
          unfold Engine.iterStep at hk3
          rw [hstep] at hk3
          exact hk3
        exact ih (iter + 1) e' (by omega) (by omega) h3'

/-- C4: with `cap = 3 × max_steps` computed from the initial memory, if the
engine is still running (non-terminal, no step error) throughout the cap
window, `run` fails with `SafetyCapExceeded` instead of iterating further;
moreover the loop invokes `step` at most `cap` times on every input (the
instrumented count agrees with the loop and is bounded), so `run` — a total
function here — terminates whenever each handler invocation does. -/
theorem c4_safety_cap (eng : Engine)
    (h : ∀ k, k < eng.memory.config.maxSteps * 3 + 1 →
      eng.nonTerminalAfter k = true) :
    Engine.run eng = .error (.safetyCapExceeded
      (eng.memory.config.maxSteps * 3 + 1)) ∧
    (Engine.runLoopCount (eng.memory.config.maxSteps * 3) eng 0).2 ≤
      eng.memory.config.maxSteps * 3 ∧
    (Engine.runLoopCount (eng.memory.config.maxSteps * 3) eng 0).1 =
      Engine.runLoop (eng.memory.config.maxSteps * 3) eng 0 := by
  have hloop := runLoop_cap_exceeded (eng.memory.config.maxSteps * 3)
    (eng.memory.config.maxSteps * 3 + 1) 0 eng (by omega) (by omega) h
  have hcount := runLoopCount_spec (eng.memory.config.maxSteps * 3)
    (eng.memory.config.maxSteps * 3 + 1) eng 0 (by omega)
  refine ⟨?_, hcount.2, hcount.1⟩
  simp only [Engine.run]
  rw [hloop]

/-- C4 witness: `loopingEngine` (whose `Planning` handler loops via
`AnswerTooShort` and whose `max_steps` is 1, so the cap is 3) stays
non-terminal through the whole cap window, and `run` fails with
`SafetyCapExceeded 4`. -/
theorem c4_safety_cap_witness :
    Engine.run loopingEngine = .error (.safetyCapExceeded 4) := by
  have h : ∀ k, k < loopingEngine.memory.config.maxSteps * 3 + 1 →
      loopingEngine.nonTerminalAfter k = true := by decide
  exact (c4_safety_cap loopingEngine h).1

/-- C5: when the loop exits on a terminal state `e.state`, `run` returns
`final_answer` (or the sentinel `"[No answer produced]"`) for `Done`, the
`AgentFailed` failure carrying `memory.error` for `Error`, and for any other
terminal state `final_answer` when present, else the sentinel naming the
state. -/
theorem c5_run_exit (eng e : Engine)
    (h : Engine.runLoop (eng.memory.config.maxSteps * 3) eng 0 = .ok e) :
    (e.state = State.done → ∀ a, e.memory.finalAnswer = some a →
      Engine.run eng = .ok a) ∧
    (e.state = State.done → e.memory.finalAnswer = none →
      Engine.run eng = .ok "[No answer produced]") ∧
    (e.state = State.error → ∀ msg, e.memory.error = some msg →
      Engine.run eng = .error (.agentFailed msg)) ∧
    (e.state ≠ State.done → e.state ≠ State.error →
      ∀ a, e.memory.finalAnswer = some a → Engine.run eng = .ok a) ∧
    (e.state ≠ State.done → e.state ≠ State.error →
      e.memory.finalAnswer = none →
      Engine.run eng = .ok ("[Terminated in state: " ++ e.state.name ++ "]")) := by
  refine ⟨?_, ?_, ?_, ?_, ?_⟩
  · intro hdone a hfa
    simp [Engine.run, h, hdone, hfa]
  · intro hdone hfa
    simp [Engine.run, h, hdone, hfa]
  · intro herr msg hmsg
    have hne : State.error ≠ State.done := by decide
    simp [Engine.run, h, herr, hmsg, hne]
  · intro hdone herr a hfa
    simp [Engine.run, h, hdone, herr, hfa]
  · intro hdone herr hfa
    simp [Engine.run, h, hdone, herr, hfa]

/-- C5 witness: an engine starting in the terminal `Done` state with
`final_answer = "forty-two"` returns exactly that answer. -/
theorem c5_run_exit_witness : Engine.run doneEngine = .ok "forty-two" := by
  have hterm : terminalContains doneEngine.terminalStates
      doneEngine.state.name = true := by decide
  have h : Engine.runLoop (doneEngine.memory.config.maxSteps * 3)
      doneEngine 0 = .ok doneEngine := by
    unfold Engine.runLoop
    rw [if_pos hterm]
  exact (c5_run_exit doneEngine doneEngine h).1 rfl "forty-two" rfl

/-- Helper: with `remaining` retries left, the retry loop makes at most
`remaining + 1` invocations of the inner caller. -/
theorem retryGo_calls_le (inner : Nat → Except String LlmResponse)
    (maxRetries : Nat) :
    ∀ (remaining attempt : Nat) (rl : Bool),
    (retryGo inner maxRetries remaining attempt rl).calls ≤ remaining + 1 := by
  intro remaining
  induction remaining with
  | zero =>
    intro attempt rl
    unfold retryGo
    cases hi : inner attempt with
    | ok r => simp
    | error e =>
      dsimp only
      by_cases hauth : RetryingLlmCaller.isAuthError e = true
      · rw [if_pos hauth]
      · rw [if_neg hauth]
  | succ r ih =>
    intro attempt rl
    unfold retryGo
    cases hi : inner attempt with
    | ok r' => simp
    | error e =>
      dsimp only
      by_cases hauth : RetryingLlmCaller.isAuthError e = true
      · rw [if_pos hauth]
        simp
      · rw [if_neg hauth]
        have hrec := ih (attempt + 1)
          (rl || RetryingLlmCaller.isRateLimitError e)
        show (retryGo inner maxRetries r (attempt + 1)
          (rl || RetryingLlmCaller.isRateLimitError e)).calls + 1 ≤ r + 1 + 1
        omega

/-- Helper: every sleep the retry loop performs corresponds to an error of
that attempt and lasts `min(base << attempt, 60)` seconds, with base 5 for a
rate-limit error and 1 otherwise. -/
theorem retryGo_sleeps (inner : Nat → Except String LlmResponse)
    (maxRetries : Nat) :
    ∀ (remaining attempt : Nat) (rl : Bool) (i : Nat),
    i < (retryGo inner maxRetries remaining attempt rl).sleeps.length →
    ∃ e, inner (attempt + i) = .error e ∧
      (retryGo inner maxRetries remaining attempt rl).sleeps.get? i =
        some (min ((if RetryingLlmCaller.isRateLimitError e then 5 else 1) <<<
          (attempt + i)) 60) := by
  intro remaining
  induction remaining with
  | zero =>
    intro attempt rl i hi
    unfold retryGo at hi
    rcases hin : inner attempt with e | r
    · rw [hin] at hi
      dsimp only at hi
      by_cases hauth : RetryingLlmCaller.isAuthError e = true
      · rw [if_pos hauth] at hi
        simp at hi
      · rw [if_neg hauth] at hi
        simp at hi
    · rw [hin] at hi
      simp at hi
  | succ r ih =>
    intro attempt rl i hi
    unfold retryGo at hi ⊢
    rcases hin : inner attempt with e | rr
    · rw [hin] at hi
      dsimp only at hi ⊢
      by_cases hauth : RetryingLlmCaller.isAuthError e = true
      · rw [if_pos hauth] at hi
        simp at hi
      · rw [if_neg hauth] at hi ⊢
        cases i with
        | zero =>
          refine ⟨e, by simpa using hin, ?_⟩
          simp
        | succ j =>
          have hj : j < (retryGo inner maxRetries r (attempt + 1)
              (rl || RetryingLlmCaller.isRateLimitError e)).sleeps.length := by
            simpa using hi
          obtain ⟨e', he', hget⟩ := ih (attempt + 1)
            (rl || RetryingLlmCaller.isRateLimitError e) j hj
          have hadd : (attempt + 1) + j = attempt + (j + 1) := by omega
          rw [hadd] at he' hget
          exact ⟨e', he', by simpa using hget⟩
    · rw [hin] at hi
      simp at hi

/-- C8: the retry wrapper invokes the inner caller at most `maxRetries + 1`
times; when the first result is an error matching an auth pattern it makes
exactly one invocation and returns that error unretried with no sleep; and
every back-off sleep between consecutive attempts corresponds to an error of
that attempt and lasts `min(base << attempt, 60)` seconds with base 1
normally and base 5 for rate-limit errors. -/
theorem c8_retry_wrapper (inner : Nat → Except String LlmResponse)
    (maxRetries : Nat) :
    (RetryingLlmCaller.callAsync inner maxRetries).calls ≤ maxRetries + 1 ∧
    (∀ e, inner 0 = .error e → RetryingLlmCaller.isAuthError e = true →
      RetryingLlmCaller.callAsync inner maxRetries =
        { result := .error e, calls := 1, sleeps := [] }) ∧
    (∀ i, i < (RetryingLlmCaller.callAsync inner maxRetries).sleeps.length →
      ∃ e, inner i = .error e ∧
        (RetryingLlmCaller.callAsync inner maxRetries).sleeps.get? i =
          some (min
            ((if RetryingLlmCaller.isRateLimitError e then 5 else 1) <<< i)
            60)) := by
  refine ⟨?_, ?_, ?_⟩
  · exact retryGo_calls_le inner maxRetries maxRetries 0 false
  · intro e h0 hauth
    unfold RetryingLlmCaller.callAsync retryGo
    rw [h0]
    dsimp only
    rw [if_pos hauth]
  · intro i hi
    have := retryGo_sleeps inner maxRetries maxRetries 0 false i
      (by simpa [RetryingLlmCaller.callAsync] using hi)
    simpa [RetryingLlmCaller.callAsync] using this

/-- C8 witness: an inner caller failing with `"401 Unauthorized"` is called
exactly once and its error is returned unretried; an inner caller failing
with `"429 rate limit"` and `maxRetries = 2` performs a first back-off sleep
of `min(5 << 0, 60) = 5` seconds. -/
theorem c8_retry_wrapper_witness :
    RetryingLlmCaller.callAsync authFailingInner 2 =
      { result := .error "401 Unauthorized", calls := 1, sleeps := [] } ∧
    (∃ e, rateLimitedInner 0 = .error e ∧
      (RetryingLlmCaller.callAsync rateLimitedInner 2).sleeps.get? 0 =
        some (min
          ((if RetryingLlmCaller.isRateLimitError e then 5 else 1) <<< 0)
          60)) := by
  constructor
  · exact (c8_retry_wrapper authFailingInner 2).2.1 "401 Unauthorized" rfl
      (by decide)
  · exact (c8_retry_wrapper rateLimitedInner 2).2.2 0 (by decide)

end Agentsm
